import Mathlib

/-!
Shallow embedding of the run-box server (src/index.ts and src/execute-command.ts).

Conventions of the embedding:
* Output chunks are modelled as `List Char`, one `Char` per byte (the source
  converts each `Buffer` chunk with `toString()` and measures `byteLength`;
  the embedding identifies the two, i.e. one byte per character).
* The single-threaded event loop is modelled by a list of `Event`s folded over
  the per-execution mutable state `ExecState`; each event corresponds to one
  uninterrupted turn (a `data` callback, the timeout timer firing, or the
  abort listener firing).
* OS side effects (actually delivering SIGTERM/SIGKILL to the process group)
  are outside the embedding; the fact that `killChild` requested termination
  is recorded in the `sigtermSent` flag.
* The progress callback `onProgress` is modelled by `progressLog`: the list of
  texts passed to the callback, in call order.
-/

namespace RunBox

/-- The two output streams read by `executeCommand`. -/
inductive Stream where
  | stdout
  | stderr
deriving DecidableEq, Repr

/-- The `reason` argument of `killChild` in src/execute-command.ts. -/
inductive KillReason where
  | timeout
  | truncation
  | shutdown
  | cancel
deriving DecidableEq, Repr

/-- The per-execution mutable state of `executeCommand`
(src/execute-command.ts, the closure variables `stdoutBuffer`,
`stderrBuffer`, `totalBytes`, `killed`, `truncated`), extended with
`sigtermSent` (whether `killChild` has requested process-group termination)
and `progressLog` (the sequence of texts passed to `onProgress`). -/
structure ExecState where
  stdoutBuffer : List Char
  stderrBuffer : List Char
  totalBytes : Nat
  killed : Bool
  truncated : Bool
  sigtermSent : Bool
  progressLog : List (List Char)
deriving DecidableEq, Repr

/-- The state at the start of `executeCommand`, before any event. -/
def initState : ExecState :=
  { stdoutBuffer := [], stderrBuffer := [], totalBytes := 0,
    killed := false, truncated := false, sigtermSent := false, progressLog := [] }

/-- `killChild` from src/execute-command.ts: latched on `killed`; on the first
firing it sets `killed`, sets `truncated` to whether the reason is
`truncation`, and requests SIGTERM (with a deferred SIGKILL escalation,
an OS effect outside the embedding). -/
def killChild (reason : KillReason) (s : ExecState) : ExecState :=
  if s.killed then s
  else { s with killed := true,
                truncated := decide (reason = KillReason.truncation),
                sigtermSent := true }

/-- Append `text` to the buffer of `stream` (the two branches of the
`if (stream === 'stdout')` statements in `handleData`). -/
def appendStream (stream : Stream) (text : List Char) (s : ExecState) : ExecState :=
  match stream with
  | .stdout => { s with stdoutBuffer := s.stdoutBuffer ++ text }
  | .stderr => { s with stderrBuffer := s.stderrBuffer ++ text }

/-- `handleData(stream)` applied to one chunk, from src/execute-command.ts:
if the chunk would push `totalBytes` past `maxOutputBytes`, append only the
fitting slice, clamp `totalBytes`, and fire `killChild('truncation')`
(returning before `onProgress`); otherwise append the whole chunk, add its
byte count, and forward the text to the progress callback. -/
def handleData (maxOutputBytes : Nat) (stream : Stream) (text : List Char)
    (s : ExecState) : ExecState :=
  let bytes := text.length
  if s.totalBytes + bytes > maxOutputBytes then
    let remaining := maxOutputBytes - s.totalBytes
    let fitting := text.take remaining
    killChild .truncation
      { appendStream stream fitting s with totalBytes := maxOutputBytes }
  else
    let s1 := { appendStream stream text s with totalBytes := s.totalBytes + bytes }
    { s1 with progressLog := s1.progressLog ++ [text] }

/-- One turn of the event loop during an execution: a delivered output chunk,
the timeout timer firing (`killChild('timeout')`), or the abort listener
firing (`killChild('cancel')`). -/
inductive Event where
  | chunk (stream : Stream) (text : List Char)
  | timeoutFire
  | abortFire
deriving DecidableEq, Repr

/-- Apply one event to the execution state. -/
def step (maxOutputBytes : Nat) (s : ExecState) (e : Event) : ExecState :=
  match e with
  | .chunk stream text => handleData maxOutputBytes stream text s
  | .timeoutFire => killChild .timeout s
  | .abortFire => killChild .cancel s

/-- Run a sequence of event-loop turns from a state. -/
def run (maxOutputBytes : Nat) (events : List Event) (s : ExecState) : ExecState :=
  events.foldl (step maxOutputBytes) s

/-- The result shape resolved by `executeCommand` (ZExecuteOutput in
src/types.ts), with strings as byte lists. -/
structure ExecuteOutput where
  stdout : List Char
  stderr : List Char
  exitCode : Int
  truncated : Bool
  killed : Bool
deriving DecidableEq, Repr

/-- The truncation marker appended to stdout by the close handler:
`\n[OUTPUT TRUNCATED at ${maxOutputBytes} bytes]`. -/
def truncationMarker (maxOutputBytes : Nat) : List Char :=
  ("\n[OUTPUT TRUNCATED at " ++ toString maxOutputBytes ++ " bytes]").data

/-- The `close` handler of src/execute-command.ts: append the truncation
marker when `truncated`, and report exit code `-1` when `killed`, otherwise
the OS code (`code ?? -1`). -/
def closeResult (maxOutputBytes : Nat) (code : Option Int) (s : ExecState) :
    ExecuteOutput :=
  { stdout := if s.truncated
              then s.stdoutBuffer ++ truncationMarker maxOutputBytes
              else s.stdoutBuffer
    stderr := s.stderrBuffer
    exitCode := if s.killed then -1 else code.getD (-1)
    truncated := s.truncated
    killed := s.killed }

/-- The `error` handler of src/execute-command.ts: resolve with exit code
`-1`, the error message as stderr, and both flags hard-coded false. -/
def errorResult (message : List Char) (s : ExecState) : ExecuteOutput :=
  { stdout := s.stdoutBuffer
    stderr := message
    exitCode := -1
    truncated := false
    killed := false }

/-! ### ProcessRegistry (the `activeProcesses` map of src/execute-command.ts)

The registry is modelled by its key set as a list (JavaScript `Map` keys are
unique, so a list without duplicates of the registered execution ids). -/

/-- `activeProcesses.set(id, child)`: adds the key if absent (if present, a
`Map` would only replace the value, leaving the key set unchanged). -/
def mapSet (id : String) (reg : List String) : List String :=
  if id ∈ reg then reg else reg ++ [id]

/-- `activeProcesses.delete(id)`: removes the key. -/
def mapDelete (id : String) (reg : List String) : List String :=
  reg.filter (fun k => k ≠ id)

/-- `getActiveProcessCount()` / `activeProcesses.size`. -/
def registryCount (reg : List String) : Nat := reg.length

/-- The registry effect of `cleanup` in `executeCommand`, invoked at the top
of both the `close` and the `error` handler. -/
def cleanupRegistry (id : String) (reg : List String) : List String :=
  mapDelete id reg

/-! ### HTTP layer (src/index.ts) -/

/-- HTTP methods distinguished by the request handler. -/
inductive Method where
  | get
  | post
  | delete
  | other
deriving DecidableEq, Repr

/-- An inbound HTTP request as seen by the handler in src/index.ts:
the method, the pathname (the URL before `?`), the optional
`mcp-session-id` header, and whether the parsed body is a handshake
request (`isInitializeRequest(body)`). -/
structure Request where
  method : Method
  pathname : String
  sessionId : Option String
  isInit : Bool
deriving DecidableEq, Repr

/-- Responses produced by the `/mcp` handlers. `forwarded` and
`sessionCreated` delegate the response to the transport; the other
constructors are the structured JSON errors written by `jsonResponse`. -/
inductive McpResponse where
  | forwarded (sid : String)
  | sessionCreated
  | sessionNotFound
  | badRequest
  | missingHeader
deriving DecidableEq, Repr

/-- Responses produced by the top-level request handler. `healthOk` is
`jsonResponse(res, 200, {status:'ok'})`; `serviceUnavailable` is the 503
shutting-down rejection; `notFound` is the final 404. -/
inductive HttpResponse where
  | serviceUnavailable
  | healthOk
  | mcp (r : McpResponse)
  | notFound
deriving DecidableEq, Repr

/-- The HTTP status code written for a response, `none` where the response is
delegated to the transport. -/
def statusOf : HttpResponse → Option Nat
  | .serviceUnavailable => some 503
  | .healthOk => some 200
  | .notFound => some 404
  | .mcp (.forwarded _) => none
  | .mcp .sessionCreated => none
  | .mcp .sessionNotFound => some 404
  | .mcp .badRequest => some 400
  | .mcp .missingHeader => some 400

/-- `handlePostMcp` from src/index.ts. `sessions` is the key set of the
session map; `newSid` stands for the `randomUUID()` a created transport
would be registered under (via `onsessioninitialized`). The four branches
mirror the source: known session forwards; no session id plus handshake
body creates a session; unknown session id is 404; otherwise 400. -/
def handlePostMcp (sessions : List String) (newSid : String)
    (sessionId : Option String) (isInit : Bool) : McpResponse × List String :=
  match sessionId with
  | some sid =>
      if sid ∈ sessions then (.forwarded sid, sessions)
      else (.sessionNotFound, sessions)
  | none =>
      if isInit then (.sessionCreated, mapSet newSid sessions)
      else (.badRequest, sessions)

/-- `handleGetMcp` from src/index.ts: 400 without the header, 404 for an
unknown session, otherwise forward to the transport. -/
def handleGetMcp (sessions : List String) (sessionId : Option String) :
    McpResponse :=
  match sessionId with
  | none => .missingHeader
  | some sid => if sid ∈ sessions then .forwarded sid else .sessionNotFound

/-- `handleDeleteMcp` from src/index.ts: identical shape to `handleGetMcp`. -/
def handleDeleteMcp (sessions : List String) (sessionId : Option String) :
    McpResponse :=
  match sessionId with
  | none => .missingHeader
  | some sid => if sid ∈ sessions then .forwarded sid else .sessionNotFound

/-- The top-level request handler passed to `createHttpServer` in
src/index.ts: the shutting-down rejection comes first, then the health
check, then `/mcp` dispatch by method, and a final 404. Returns the
response together with the session key set after the request. -/
def serverHandler (isShuttingDown : Bool) (sessions : List String)
    (newSid : String) (req : Request) : HttpResponse × List String :=
  if isShuttingDown then (.serviceUnavailable, sessions)
  else if req.method = .get ∧ req.pathname = "/health" then (.healthOk, sessions)
  else if req.pathname = "/mcp" then
    match req.method with
    | .post =>
        let r := handlePostMcp sessions newSid req.sessionId req.isInit
        (.mcp r.1, r.2)
    | .get => (.mcp (handleGetMcp sessions req.sessionId), sessions)
    | .delete => (.mcp (handleDeleteMcp sessions req.sessionId), sessions)
    | .other => (.notFound, sessions)
  else (.notFound, sessions)

/-! ### Derived notions used by the theorems -/

/-- Total byte count of a list of chunks. -/
def sumBytes (cs : List (Stream × List Char)) : Nat :=
  (cs.map (fun c => c.2.length)).sum

/-- The events of a pure-output trace: every turn delivers a chunk. -/
def chunkEvents (cs : List (Stream × List Char)) : List Event :=
  cs.map (fun c => Event.chunk c.1 c.2)

/-- Concatenation of the stdout chunks of a trace, in delivery order. -/
def outConcat : List (Stream × List Char) → List Char
  | [] => []
  | (st, t) :: rest => (if st = .stdout then t else []) ++ outConcat rest

/-- Concatenation of the stderr chunks of a trace, in delivery order. -/
def errConcat : List (Stream × List Char) → List Char
  | [] => []
  | (st, t) :: rest => (if st = .stderr then t else []) ++ errConcat rest

end RunBox

namespace RunBox

/-! ### Helper lemmas -/

/-- Once `killed` is latched, `killChild` is the identity. -/
theorem killChild_of_killed (r : KillReason) (s : ExecState) (h : s.killed = true) :
    killChild r s = s := by
  simp [killChild, h]

/-- Once `killed` is latched, any sequence of further terminator firings is
the identity. -/
theorem foldl_killChild_fixed (rs : List KillReason) (s : ExecState)
    (h : s.killed = true) :
    rs.foldl (fun st r2 => killChild r2 st) s = s := by
  induction rs with
  | nil => rfl
  | cons r rest ih => rw [List.foldl_cons, killChild_of_killed r s h, ih]

/-- A chunk that fits under the cap takes the non-truncating branch of
`handleData`: full append, byte count advanced, text forwarded. -/
theorem handleData_fits (max : Nat) (st : Stream) (t : List Char) (s : ExecState)
    (h : s.totalBytes + t.length ≤ max) :
    handleData max st t s =
      { appendStream st t s with totalBytes := s.totalBytes + t.length,
                                 progressLog := s.progressLog ++ [t] } := by
  have h1 : ¬ (s.totalBytes + t.length > max) := by omega
  cases st <;> simp [handleData, appendStream, h1]

/-- Running a pure-output trace whose total size fits under the cap simply
appends the chunks to the buffers and the progress log and advances the byte
count; the flags are untouched. -/
theorem run_fits (max : Nat) :
    ∀ (cs : List (Stream × List Char)) (s : ExecState),
      s.totalBytes + sumBytes cs ≤ max →
      run max (chunkEvents cs) s =
        { stdoutBuffer := s.stdoutBuffer ++ outConcat cs,
          stderrBuffer := s.stderrBuffer ++ errConcat cs,
          totalBytes := s.totalBytes + sumBytes cs,
          killed := s.killed, truncated := s.truncated,
          sigtermSent := s.sigtermSent,
          progressLog := s.progressLog ++ cs.map (fun c => c.2) } := by
  intro cs
  induction cs with
  | nil =>
    intro s h
    simp [run, chunkEvents, sumBytes, outConcat, errConcat]
  | cons c rest ih =>
    intro s h
    obtain ⟨st, t⟩ := c
    have hsum : sumBytes ((st, t) :: rest) = t.length + sumBytes rest := by
      simp [sumBytes]
    rw [hsum] at h
    have h1 : s.totalBytes + t.length ≤ max := by omega
    have hstep : run max (chunkEvents ((st, t) :: rest)) s
        = run max (chunkEvents rest) (handleData max st t s) := by
      simp [chunkEvents, run, step]
    have h2 : (handleData max st t s).totalBytes + sumBytes rest ≤ max := by
      rw [handleData_fits max st t s h1]
      simpa using by omega
    rw [hstep, ih _ h2, handleData_fits max st t s h1]
    cases st <;>
      simp [appendStream, outConcat, errConcat, hsum, ExecState.mk.injEq,
            List.append_assoc] <;>
      omega

/-- `killChild` preserves the invariant that a set `truncated` flag comes
with a set `killed` flag. -/
theorem trunc_imp_killed_killChild (r : KillReason) (s : ExecState)
    (h : s.truncated = true → s.killed = true) :
    (killChild r s).truncated = true → (killChild r s).killed = true := by
  unfold killChild
  split
  · exact h
  · simp

/-- One event-loop turn preserves the truncated-implies-killed invariant. -/
theorem trunc_imp_killed_step (max : Nat) (s : ExecState) (e : Event)
    (h : s.truncated = true → s.killed = true) :
    (step max s e).truncated = true → (step max s e).killed = true := by
  cases e with
  | timeoutFire => exact trunc_imp_killed_killChild _ _ h
  | abortFire => exact trunc_imp_killed_killChild _ _ h
  | chunk st t =>
    simp only [step, handleData]
    split
    · apply trunc_imp_killed_killChild
      cases st <;> simpa [appendStream] using h
    · cases st <;> simpa [appendStream] using h

/-- Any run preserves the truncated-implies-killed invariant. -/
theorem trunc_imp_killed_run (max : Nat) :
    ∀ (events : List Event) (s : ExecState),
      (s.truncated = true → s.killed = true) →
      ((run max events s).truncated = true → (run max events s).killed = true) := by
  intro events
  induction events with
  | nil => intro s h; simpa [run] using h
  | cons e rest ih =>
    intro s h
    have h1 := trunc_imp_killed_step max s e h
    simpa [run, List.foldl_cons] using ih (step max s e) h1

/-! ### Claim theorems -/

/-- Claim C1, counterexample: while the shutting-down flag is set, a
`GET /health` request is answered with the 503 service-unavailable rejection,
not with 200 `{"status":"ok"}` — refuting the claim that health stays
available during drain and that the rejection applies only to `/mcp`. -/
theorem c1_health_rejected_during_drain_cex :
    serverHandler true [] "fresh" ⟨Method.get, "/health", none, false⟩
      = (HttpResponse.serviceUnavailable, [])
    ∧ statusOf (serverHandler true [] "fresh" ⟨Method.get, "/health", none, false⟩).1
      = some 503
    ∧ statusOf (serverHandler true [] "fresh" ⟨Method.get, "/health", none, false⟩).1
      ≠ some 200 := by
  decide

/-- Claim C1, amended: while the shutting-down flag is clear, every
`GET /health` request is answered 200 with body `{"status":"ok"}` and the
session map is untouched; once the flag is set, every request — `/health`
included — is rejected with the 503 service-unavailable error before any
session lookup. -/
theorem c1_health_amended :
    (∀ (sessions : List String) (newSid : String) (sid : Option String) (isInit : Bool),
      serverHandler false sessions newSid ⟨Method.get, "/health", sid, isInit⟩
        = (HttpResponse.healthOk, sessions))
    ∧ (∀ (sessions : List String) (newSid : String) (req : Request),
      serverHandler true sessions newSid req = (HttpResponse.serviceUnavailable, sessions))
    ∧ statusOf HttpResponse.healthOk = some 200
    ∧ statusOf HttpResponse.serviceUnavailable = some 503 := by
  refine ⟨?_, ?_, rfl, rfl⟩
  · intro sessions newSid sid isInit
    simp [serverHandler]
  · intro sessions newSid req
    simp [serverHandler]

/-- Claim C2, counterexample: a chunk that pushes the cumulative byte count
strictly past the cap but arrives after a timeout kill has latched `killed`
does have its fitting slice appended, yet the `truncated` flag is not set and
the final stdout carries no truncation marker — refuting the claim's
universal form. -/
theorem c2_cap_breach_after_kill_cex :
    (run 5 [Event.timeoutFire, Event.chunk Stream.stdout "aaaaaab".data] initState).truncated
      = false
    ∧ (run 5 [Event.timeoutFire, Event.chunk Stream.stdout "aaaaaab".data] initState).killed
      = true
    ∧ (run 5 [Event.timeoutFire, Event.chunk Stream.stdout "aaaaaab".data] initState).stdoutBuffer
      = "aaaaa".data
    ∧ (closeResult 5 none
        (run 5 [Event.timeoutFire, Event.chunk Stream.stdout "aaaaaab".data] initState)).stdout
      = "aaaaa".data
    ∧ (closeResult 5 none
        (run 5 [Event.timeoutFire, Event.chunk Stream.stdout "aaaaaab".data] initState)).truncated
      = false := by
  decide

/-- Claim C2, amended: on a chunk that would push the cumulative byte count
strictly past `maxOutputBytes`, provided no terminator has fired yet
(`killed` still unset), only the fitting byte prefix is appended to the
chunk's stream buffer, the byte count is clamped to the cap, `truncated` and
`killed` are set and termination is requested, the excess bytes (and every
later non-empty chunk) are discarded and never buffered, the chunk is not
forwarded to the progress callback, and the final result's stdout ends with
the truncation marker naming `maxOutputBytes`. -/
theorem c2_byte_cap_policy (max : Nat) (s : ExecState) (st : Stream) (t : List Char)
    (code : Option Int)
    (hk : s.killed = false) (hb : max < s.totalBytes + t.length) :
    (handleData max st t s).killed = true
    ∧ (handleData max st t s).truncated = true
    ∧ (handleData max st t s).sigtermSent = true
    ∧ (handleData max st t s).totalBytes = max
    ∧ (handleData max st t s).stdoutBuffer
        = s.stdoutBuffer ++ (if st = Stream.stdout then t.take (max - s.totalBytes) else [])
    ∧ (handleData max st t s).stderrBuffer
        = s.stderrBuffer ++ (if st = Stream.stderr then t.take (max - s.totalBytes) else [])
    ∧ (handleData max st t s).progressLog = s.progressLog
    ∧ (closeResult max code (handleData max st t s)).stdout
        = (handleData max st t s).stdoutBuffer ++ truncationMarker max
    ∧ (closeResult max code (handleData max st t s)).truncated = true
    ∧ (closeResult max code (handleData max st t s)).killed = true
    ∧ (∀ (st2 : Stream) (t2 : List Char), t2 ≠ [] →
        handleData max st2 t2 (handleData max st t s) = handleData max st t s) := by
  have h1 : s.totalBytes + t.length > max := hb
  have hd : handleData max st t s =
      { appendStream st (t.take (max - s.totalBytes)) s with
        totalBytes := max, killed := true, truncated := true, sigtermSent := true } := by
    have h2 : (appendStream st (t.take (max - s.totalBytes)) s).killed = false := by
      cases st <;> simpa [appendStream] using hk
    simp [handleData, h1, killChild, h2]
  refine ⟨?_, ?_, ?_, ?_, ?_, ?_, ?_, ?_, ?_, ?_, ?_⟩
  · rw [hd]
  · rw [hd]
  · rw [hd]
  · rw [hd]
  · rw [hd]; cases st <;> simp [appendStream]
  · rw [hd]; cases st <;> simp [appendStream]
  · rw [hd]; cases st <;> simp [appendStream]
  · rw [hd]; simp [closeResult]
  · rw [hd]; simp [closeResult]
  · rw [hd]; simp [closeResult]
  · intro st2 t2 ht2
    have hlen : 0 < t2.length := List.length_pos.mpr ht2
    have h5 : max + t2.length > max := by omega
    rw [hd]
    cases st2 <;> cases st <;>
      simp [handleData, appendStream, h5, killChild]

/-- Witness for `c2_byte_cap_policy` at a concrete breaching chunk. -/
theorem c2_byte_cap_policy_witness :
    (handleData 3 Stream.stdout "abcde".data initState).truncated = true :=
  (c2_byte_cap_policy 3 initState Stream.stdout "abcde".data none rfl (by decide)).2.1

/-- Claim C3: the close handler reports exit code `-1` whenever `killed` is
set, and otherwise the OS code, defaulting to `-1` when absent; a run whose
chunks all fit under the cap and in which no terminator fires closes with
`killed=false`, `truncated=false`, and the shell's reported status. -/
theorem c3_exit_code_assembly (max : Nat) (code : Int)
    (cs : List (Stream × List Char)) (hsum : sumBytes cs ≤ max) :
    (∀ (s : ExecState) (c : Option Int),
        (closeResult max c s).exitCode = if s.killed then (-1 : Int) else c.getD (-1))
    ∧ (closeResult max (some code) (run max (chunkEvents cs) initState)).killed = false
    ∧ (closeResult max (some code) (run max (chunkEvents cs) initState)).truncated = false
    ∧ (closeResult max (some code) (run max (chunkEvents cs) initState)).exitCode = code := by
  have hr := run_fits max cs initState (by simpa [initState] using hsum)
  refine ⟨fun s c => rfl, ?_, ?_, ?_⟩ <;> rw [hr] <;> simp [closeResult, initState]

/-- Witness for `c3_exit_code_assembly` on a two-byte echo exiting 7. -/
theorem c3_exit_code_assembly_witness :
    (closeResult 10 (some 7)
      (run 10 (chunkEvents [(Stream.stdout, "hi".data)]) initState)).exitCode = 7 :=
  (c3_exit_code_assembly 10 7 [(Stream.stdout, "hi".data)] (by decide)).2.2.2

/-- Claim C4: the first terminator firing latches `killed`, sets `truncated`
exactly when its cause is truncation, requests the process-group kill, and
leaves the buffers, the progress log and the byte count untouched; any
sequence of subsequent firings, in any order, is a no-op on the state. -/
theorem c4_termination_idempotent (s : ExecState) (r : KillReason)
    (h : s.killed = false) :
    (killChild r s).killed = true
    ∧ ((killChild r s).truncated = true ↔ r = KillReason.truncation)
    ∧ (killChild r s).sigtermSent = true
    ∧ (killChild r s).stdoutBuffer = s.stdoutBuffer
    ∧ (killChild r s).stderrBuffer = s.stderrBuffer
    ∧ (killChild r s).progressLog = s.progressLog
    ∧ (killChild r s).totalBytes = s.totalBytes
    ∧ (∀ rs : List KillReason,
        rs.foldl (fun st r2 => killChild r2 st) (killChild r s) = killChild r s) := by
  have hk : (killChild r s).killed = true := by simp [killChild, h]
  refine ⟨hk, ?_, ?_, ?_, ?_, ?_, ?_, fun rs => foldl_killChild_fixed rs _ hk⟩ <;>
    simp [killChild, h]

/-- Witness for `c4_termination_idempotent` at a timeout firing from the
initial state. -/
theorem c4_termination_idempotent_witness :
    (killChild KillReason.timeout initState).killed = true :=
  (c4_termination_idempotent initState KillReason.timeout rfl).1

/-- Claim C5: in every result assembled by the close handler over any event
trace, and in every spawn-error result, `truncated=true` implies
`killed=true`; conversely a timeout-killed run yields `killed=true` with
`truncated=false`, so the implication does not reverse. -/
theorem c5_truncated_implies_killed :
    (∀ (max : Nat) (events : List Event) (code : Option Int),
        (closeResult max code (run max events initState)).truncated = true →
        (closeResult max code (run max events initState)).killed = true)
    ∧ (∀ (msg : List Char) (s : ExecState),
        (errorResult msg s).truncated = true → (errorResult msg s).killed = true)
    ∧ (closeResult 10 none (run 10 [Event.timeoutFire] initState)).killed = true
    ∧ (closeResult 10 none (run 10 [Event.timeoutFire] initState)).truncated = false := by
  refine ⟨?_, ?_, by decide, by decide⟩
  · intro max events code
    have h1 := trunc_imp_killed_run max events initState (by simp [initState])
    simpa [closeResult] using h1
  · intro msg s
    simp [errorResult]

/-- Witness for `c5_truncated_implies_killed` on a truncating run. -/
theorem c5_truncated_implies_killed_witness :
    (closeResult 3 none
      (run 3 [Event.chunk Stream.stdout "aaaa".data] initState)).killed = true :=
  c5_truncated_implies_killed.1 3 [Event.chunk Stream.stdout "aaaa".data] none (by decide)

/-- Claim C6, counterexample: a cap-breaching chunk has its non-empty
fitting slice appended to the stream buffer, yet the progress callback is
never invoked for it — refuting the claim that every chunk appended to a
buffer is forwarded to the callback. -/
theorem c6_appended_not_forwarded_cex :
    (handleData 5 Stream.stdout "abcdefg".data initState).stdoutBuffer = "abcde".data
    ∧ "abcde".data ≠ []
    ∧ (handleData 5 Stream.stdout "abcdefg".data initState).progressLog = [] := by
  decide

/-- Claim C6, amended: every chunk that fits under the cap is appended in
full to its stream's buffer and forwarded verbatim to the progress callback,
with delivery order preserved in both the buffers and the callback sequence
over any fitting trace; the fitting slice appended by a cap-breaching chunk
is not forwarded. -/
theorem c6_progress_forwarding (max : Nat) (s : ExecState) (st : Stream)
    (t : List Char) :
    (s.totalBytes + t.length ≤ max →
      (handleData max st t s).progressLog = s.progressLog ++ [t]
      ∧ (handleData max st t s).stdoutBuffer
          = s.stdoutBuffer ++ (if st = Stream.stdout then t else [])
      ∧ (handleData max st t s).stderrBuffer
          = s.stderrBuffer ++ (if st = Stream.stderr then t else []))
    ∧ (max < s.totalBytes + t.length →
      (handleData max st t s).progressLog = s.progressLog)
    ∧ (∀ (cs : List (Stream × List Char)), sumBytes cs ≤ max →
        (run max (chunkEvents cs) initState).progressLog = cs.map (fun c => c.2)
        ∧ (run max (chunkEvents cs) initState).stdoutBuffer = outConcat cs
        ∧ (run max (chunkEvents cs) initState).stderrBuffer = errConcat cs) := by
  refine ⟨?_, ?_, ?_⟩
  · intro h
    rw [handleData_fits max st t s h]
    cases st <;> simp [appendStream]
  · intro h
    have h1 : s.totalBytes + t.length > max := h
    cases st <;> simp [handleData, appendStream, h1, killChild] <;> split <;> rfl
  · intro cs hsum
    have hr := run_fits max cs initState (by simpa [initState] using hsum)
    rw [hr]
    exact ⟨rfl, rfl, rfl⟩

/-- Witness for `c6_progress_forwarding` on a fitting chunk. -/
theorem c6_progress_forwarding_witness :
    (handleData 5 Stream.stdout "ab".data initState).progressLog
      = initState.progressLog ++ ["ab".data] :=
  ((c6_progress_forwarding 5 initState Stream.stdout "ab".data).1 (by decide)).1

/-- Claim C7: the spawn-error handler always resolves with exit code `-1`,
the error message as stderr, both flags false, and the stdout gathered so
far — it produces a result for every state and message instead of throwing. -/
theorem c7_spawn_error_result (msg : List Char) (s : ExecState) :
    (errorResult msg s).exitCode = -1
    ∧ (errorResult msg s).stderr = msg
    ∧ (errorResult msg s).killed = false
    ∧ (errorResult msg s).truncated = false
    ∧ (errorResult msg s).stdout = s.stdoutBuffer :=
  ⟨rfl, rfl, rfl, rfl, rfl⟩

/-- Claim C8: while not shutting down, a POST with an unknown session id is
rejected with the session-not-found error, a POST with neither a session id
nor a handshake body with the bad-request error, a GET or DELETE without a
session id with the missing-header error, a GET or DELETE with an unknown
session id with the session-not-found error, and in every one of these cases
the session map is returned unchanged. -/
theorem c8_mcp_request_rejection (sessions : List String) (newSid sid : String)
    (isInit : Bool) (h : sid ∉ sessions) :
    serverHandler false sessions newSid ⟨Method.post, "/mcp", some sid, isInit⟩
      = (HttpResponse.mcp McpResponse.sessionNotFound, sessions)
    ∧ serverHandler false sessions newSid ⟨Method.post, "/mcp", none, false⟩
      = (HttpResponse.mcp McpResponse.badRequest, sessions)
    ∧ serverHandler false sessions newSid ⟨Method.get, "/mcp", none, isInit⟩
      = (HttpResponse.mcp McpResponse.missingHeader, sessions)
    ∧ serverHandler false sessions newSid ⟨Method.delete, "/mcp", none, isInit⟩
      = (HttpResponse.mcp McpResponse.missingHeader, sessions)
    ∧ serverHandler false sessions newSid ⟨Method.get, "/mcp", some sid, isInit⟩
      = (HttpResponse.mcp McpResponse.sessionNotFound, sessions)
    ∧ serverHandler false sessions newSid ⟨Method.delete, "/mcp", some sid, isInit⟩
      = (HttpResponse.mcp McpResponse.sessionNotFound, sessions)
    ∧ statusOf (HttpResponse.mcp McpResponse.sessionNotFound) = some 404
    ∧ statusOf (HttpResponse.mcp McpResponse.badRequest) = some 400
    ∧ statusOf (HttpResponse.mcp McpResponse.missingHeader) = some 400 := by
  refine ⟨?_, ?_, ?_, ?_, ?_, ?_, rfl, rfl, rfl⟩ <;>
    simp [serverHandler, handlePostMcp, handleGetMcp, handleDeleteMcp, h]

/-- Witness for `c8_mcp_request_rejection` with an unknown session id. -/
theorem c8_mcp_request_rejection_witness :
    serverHandler false ["a"] "c" ⟨Method.post, "/mcp", some "b", false⟩
      = (HttpResponse.mcp McpResponse.sessionNotFound, ["a"]) :=
  (c8_mcp_request_rejection ["a"] "c" "b" false (by decide)).1

/-- Claim C9: registering a fresh execution id adds exactly one entry to the
process registry, and the cleanup run by the close and error handlers removes
it again, restoring the registry — and hence its count — to its prior value. -/
theorem c9_registry_roundtrip (reg : List String) (id : String) (h : id ∉ reg) :
    registryCount (mapSet id reg) = registryCount reg + 1
    ∧ id ∈ mapSet id reg
    ∧ cleanupRegistry id (mapSet id reg) = reg
    ∧ registryCount (cleanupRegistry id (mapSet id reg)) = registryCount reg := by
  have h1 : mapSet id reg = reg ++ [id] := by simp [mapSet, h]
  have h2 : cleanupRegistry id (mapSet id reg) = reg := by
    rw [cleanupRegistry, mapDelete, h1]
    simp
    intro a ha hEq
    exact h (hEq ▸ ha)
  refine ⟨?_, ?_, h2, ?_⟩
  · simp [registryCount, h1]
  · simp [h1]
  · rw [h2]

/-- Witness for `c9_registry_roundtrip` with a fresh id over a one-entry
registry. -/
theorem c9_registry_roundtrip_witness :
    cleanupRegistry "b" (mapSet "b" ["a"]) = ["a"] :=
  (c9_registry_roundtrip ["a"] "b" (by decide)).2.2.1

/-- Claim C10: a chunk that brings the cumulative byte count exactly to
`maxOutputBytes` is appended in full and forwarded to the progress callback,
and changes neither the `killed` nor the `truncated` flag nor the
termination request; more generally no chunk whose bytes keep the count at
or under the cap ever touches the flags. -/
theorem c10_exact_cap_chunk (max : Nat) (s : ExecState) (st : Stream)
    (t : List Char) (h : s.totalBytes + t.length = max) :
    (handleData max st t s).killed = s.killed
    ∧ (handleData max st t s).truncated = s.truncated
    ∧ (handleData max st t s).sigtermSent = s.sigtermSent
    ∧ (handleData max st t s).totalBytes = max
    ∧ (handleData max st t s).progressLog = s.progressLog ++ [t]
    ∧ (handleData max st t s).stdoutBuffer
        = s.stdoutBuffer ++ (if st = Stream.stdout then t else [])
    ∧ (handleData max st t s).stderrBuffer
        = s.stderrBuffer ++ (if st = Stream.stderr then t else [])
    ∧ (∀ (st2 : Stream) (t2 : List Char) (s2 : ExecState),
        s2.totalBytes + t2.length ≤ max →
        (handleData max st2 t2 s2).killed = s2.killed
        ∧ (handleData max st2 t2 s2).truncated = s2.truncated) := by
  have hfit : s.totalBytes + t.length ≤ max := le_of_eq h
  rw [handleData_fits max st t s hfit]
  refine ⟨?_, ?_, ?_, ?_, ?_, ?_, ?_, ?_⟩
  · cases st <;> simp [appendStream]
  · cases st <;> simp [appendStream]
  · cases st <;> simp [appendStream]
  · cases st <;> simp [appendStream, h]
  · cases st <;> simp [appendStream]
  · cases st <;> simp [appendStream]
  · cases st <;> simp [appendStream]
  · intro st2 t2 s2 h2
    rw [handleData_fits max st2 t2 s2 h2]
    cases st2 <;> simp [appendStream]

/-- Witness for `c10_exact_cap_chunk` on a chunk landing exactly on the cap. -/
theorem c10_exact_cap_chunk_witness :
    (handleData 5 Stream.stdout "abcde".data initState).truncated = false :=
  (c10_exact_cap_chunk 5 initState Stream.stdout "abcde".data (by decide)).2.1

end RunBox
